import Mathlib

/-!
Verification of the `gostructui` struct-menu package (`menu.go`).

This file gives a shallow embedding of the package's data model and
operations, translated from the Go source:

* `menuField`, `TModelStructMenu`, `MenuSettings` mirror the structs of
  `menu.go`;
* records offered to `InitialTModelStructMenu` / `ParseStruct` are modelled
  as lists of reflected fields (`StructField`), with the dynamic type of a
  field value given by the closed variant `GoValue` over the three field
  types the menu handles (Go `string`, `bool`, `int`);
* `goItoa` / `goAtoi` model the `strconv.Itoa` / `strconv.Atoi` library
  calls (decimal conversion; Go's slicing in the source is byte-level, and
  all values involved are ASCII decimal strings, so character-level
  modelling coincides with it);
* `Update` and `View` are translated branch by branch from the source.

Go `int` values are modelled as unbounded `Int`; machine-width wraparound
is outside the model (all menu interactions considered here stay far within
the 64-bit range).  Indexing a list out of range is modelled by a default
element where Go would panic; every theorem about indexed access carries a
cursor-in-range hypothesis, so the default is never relevant.
-/

/-- Dynamic type of a reflected field value: the closed set of Go kinds the
menu operates on (`reflect.String`, `reflect.Bool`, `reflect.Int`), plus
`kOther` for any field type the menu does not support. -/
inductive GoKind where
  | kString
  | kBool
  | kInt
  | kOther
deriving DecidableEq, Repr

/-- A Go value stored in an `any` slot, restricted to the three dynamic
types the menu's type switches handle (`string`, `bool`, `int`). -/
inductive GoValue where
  | vStr (s : String)
  | vBool (b : Bool)
  | vInt (n : Int)
deriving DecidableEq, Repr

instance : Inhabited GoValue := ⟨GoValue.vStr ""⟩

/-- The variant of a `GoValue`, i.e. the dynamic type reported by a Go type
switch on the stored `any` value. -/
def valueVariant : GoValue → GoKind
  | GoValue.vStr _ => GoKind.kString
  | GoValue.vBool _ => GoKind.kBool
  | GoValue.vInt _ => GoKind.kInt

/-- One reflected field of a source/destination struct: its name, the kind
of its type, its current value, whether `reflect` reports it settable
(exported and addressable), and its `smname` / `smdes` tags. -/
structure StructField where
  name : String
  kind : GoKind
  value : GoValue
  canSet : Bool
  smname : String
  smdes : String
deriving DecidableEq, Repr

instance : Inhabited StructField := ⟨⟨"", GoKind.kString, default, false, "", ""⟩⟩

/-- A struct-like record: its reflected fields in declaration order. -/
abbrev GoStruct := List StructField

/-- A field of a well-formed Go struct stores a value of its declared type:
the `GoValue` variant agrees with the field's kind (for `kOther` the stored
`GoValue` is irrelevant — the code never reads it). -/
def fieldWF (f : StructField) : Bool :=
  match f.kind, f.value with
  | GoKind.kString, GoValue.vStr _ => true
  | GoKind.kBool, GoValue.vBool _ => true
  | GoKind.kInt, GoValue.vInt _ => true
  | GoKind.kOther, _ => true
  | _, _ => false

/-- The `any` argument handed to `InitialTModelStructMenu` / `ParseStruct`:
either a pointer to a struct, a pointer whose element type is not a struct,
or a non-pointer value. -/
inductive StructObj where
  | ptrToStruct (s : GoStruct)
  | ptrToNonStruct
  | notAPointer
deriving DecidableEq, Repr

/-- `MenuSettings` from `menu.go` (field order as in the source). -/
structure MenuSettings where
  NavCursorChar : String
  EditCursorChar : String
  IBeamChar : String
  TabAfterEntry : Bool
  Header : String
deriving DecidableEq, Repr

/-- The Go zero value of `MenuSettings`. -/
instance : Inhabited MenuSettings := ⟨⟨"", "", "", false, ""⟩⟩

/-- `MenuSettings.Init` from the source: the defaults it assigns. -/
def MenuSettings.Init : MenuSettings :=
  { IBeamChar := "|"
    NavCursorChar := "> "
    EditCursorChar := ">>"
    TabAfterEntry := true
    Header := "" }

/-- `menuField` from `menu.go`. -/
structure menuField where
  value : GoValue
  name : String
  smName : String
  smDes : String
deriving DecidableEq, Repr

instance : Inhabited menuField := ⟨⟨default, "", "", ""⟩⟩

/-- `menuField.getFieldName` from the source. -/
def menuField.getFieldName (f : menuField) : String :=
  if f.smName ≠ "" then f.smName else f.name

/-- `TModelStructMenu` from `menu.go` (the cursor is a Go `int`). -/
structure TModelStructMenu where
  menuFields : List menuField
  cursor : Int
  isEditingValue : Bool
  QuitWithCancel : Bool
  Settings : MenuSettings
deriving DecidableEq, Repr

/-- The Go zero value of `TModelStructMenu`. -/
instance : Inhabited TModelStructMenu := ⟨⟨[], 0, false, false, default⟩⟩

/-- `incrCursor` from the source: moves the cursor toward index 0
(the source names `incrCursor`/`decrCursor` opposite to the direction of
the index change; the names are kept as in the source). -/
def TModelStructMenu.incrCursor (m : TModelStructMenu) : TModelStructMenu :=
  if m.cursor > 0 then { m with cursor := m.cursor - 1 } else m

/-- `decrCursor` from the source: moves the cursor toward the last index. -/
def TModelStructMenu.decrCursor (m : TModelStructMenu) : TModelStructMenu :=
  if m.cursor < (m.menuFields.length : Int) - 1 then
    { m with cursor := m.cursor + 1 }
  else m

/-- `getFieldAtIndex` from the source (out-of-range access, a panic in Go,
is modelled by the default field). -/
def TModelStructMenu.getFieldAtIndex (m : TModelStructMenu) (i : Int) : menuField :=
  m.menuFields.getD i.toNat default

/-- `getFieldValueAtIndex` from the source. -/
def TModelStructMenu.getFieldValueAtIndex (m : TModelStructMenu) (i : Int) : GoValue :=
  (m.getFieldAtIndex i).value

/-- `setFieldValueAtIndex` from the source. -/
def TModelStructMenu.setFieldValueAtIndex (m : TModelStructMenu) (i : Int) (v : GoValue) :
    TModelStructMenu :=
  { m with
    menuFields := m.menuFields.set i.toNat
      { (m.menuFields.getD i.toNat default) with value := v } }

/-- `getCursorFieldValue` from the source. -/
def TModelStructMenu.getCursorFieldValue (m : TModelStructMenu) : GoValue :=
  m.getFieldValueAtIndex m.cursor

/-- `setCursorFieldValue` from the source. -/
def TModelStructMenu.setCursorFieldValue (m : TModelStructMenu) (v : GoValue) :
    TModelStructMenu :=
  m.setFieldValueAtIndex m.cursor v

/-- The cursor is a valid index into the field list. -/
def cursorOk (m : TModelStructMenu) : Prop :=
  0 ≤ m.cursor ∧ m.cursor < (m.menuFields.length : Int)

instance (m : TModelStructMenu) : Decidable (cursorOk m) := by
  unfold cursorOk; infer_instance

/-! ### Models of the `strconv` library calls -/

/-- The decimal digit character for a digit value. -/
def digitChar : Nat → Char
  | 0 => '0'
  | 1 => '1'
  | 2 => '2'
  | 3 => '3'
  | 4 => '4'
  | 5 => '5'
  | 6 => '6'
  | 7 => '7'
  | 8 => '8'
  | 9 => '9'
  | _ => '?'

/-- Little-endian decimal digits of a natural number, with explicit fuel so
that the definition is structurally recursive (fuel `n` is always enough
for `n` itself). -/
def natToDigitsRevFuel : Nat → Nat → List Char
  | 0, _ => []
  | f + 1, n => if n = 0 then [] else digitChar (n % 10) :: natToDigitsRevFuel f (n / 10)

/-- Little-endian decimal digits of a natural number (`[]` for 0). -/
def natToDigitsRev (n : Nat) : List Char :=
  natToDigitsRevFuel n n

/-- Big-endian decimal digit characters of a natural number (`[]` for 0). -/
def natDigits (n : Nat) : List Char :=
  (natToDigitsRev n).reverse

/-- Decimal rendering of a natural number. -/
def natToString (n : Nat) : String :=
  if n = 0 then "0" else ⟨natDigits n⟩

/-- Model of `strconv.Itoa`. -/
def goItoa (v : Int) : String :=
  if v < 0 then "-" ++ natToString (-v).toNat else natToString v.toNat

/-- Parse a non-empty all-digit character list as a natural number
(helper for the `strconv.Atoi` model). -/
def parseNat (cs : List Char) : Option Nat :=
  if cs = [] then none
  else if cs.all Char.isDigit then
    some (cs.foldl (fun acc c => acc * 10 + (c.toNat - 48)) 0)
  else none

/-- The character-list form of the `strconv.Atoi` model: an optional
single leading sign, then decimal digits; the syntax-error cases return
`none`. -/
def goAtoiList : List Char → Option Int
  | [] => none
  | c :: cs =>
    if c = '-' then (parseNat cs).map (fun n => -(n : Int))
    else if c = '+' then (parseNat cs).map (fun n => (n : Int))
    else (parseNat (c :: cs)).map (fun n => (n : Int))

/-- Model of `strconv.Atoi`.  Go's range saturation is not modelled: the
values reached here are far inside the 64-bit range. -/
def goAtoi (s : String) : Option Int :=
  goAtoiList s.data

/-- Model of `strconv.FormatBool`. -/
def goFormatBool (b : Bool) : String :=
  if b then "true" else "false"

/-! ### Messages of the bubbletea host loop -/

/-- A decoded key event: `backspace` stands for a message whose `Type` is
`tea.KeyBackspace`; `str s` stands for any other key, identified by what
its `String()` method returns. -/
inductive KeyMsg where
  | str (s : String)
  | backspace
deriving DecidableEq, Repr

/-- A `tea.Msg`: either a key event or any other message (which `Update`
ignores). -/
inductive TeaMsg where
  | key (k : KeyMsg)
  | other
deriving DecidableEq, Repr

/-- A `tea.Cmd` as returned by `Update`: `nil` or `tea.Quit`. -/
inductive TeaCmd where
  | none
  | quit
deriving DecidableEq, Repr

/-- The strings of the ten digit keys. -/
def digitKeyStrings : List String :=
  ["0", "1", "2", "3", "4", "5", "6", "7", "8", "9"]

/-- Whether a key string is one of the ten digit keys. -/
def isDigitKeyStr (s : String) : Bool :=
  digitKeyStrings.contains s

/-! ### Menu construction (`InitialTModelStructMenu`) -/

/-- One pass of the extraction loop body of `InitialTModelStructMenu`:
filter by the field list, skip non-settable fields, then keep the field
when its kind is string, bool or an int kind. -/
def extractField (fieldList : List String) (asBlacklist : Bool) (f : StructField) :
    Option menuField :=
  if (!fieldList.isEmpty) &&
      (if asBlacklist then fieldList.contains f.name else !(fieldList.contains f.name)) then
    none
  else if !f.canSet then
    none
  else
    match f.kind with
    | GoKind.kOther => none
    | _ => some { value := f.value, name := f.name, smName := f.smname, smDes := f.smdes }

/-- `InitialTModelStructMenu` from the source, returning the model together
with the `error` result (`none` for a `nil` error).  Note that on a pointer
to a non-struct the source prints an error message but returns the zero
model with a `nil` error. -/
def InitialTModelStructMenu (structObj : StructObj) (fieldList : List String)
    (asBlacklist : Bool) (customSettings : Option MenuSettings) :
    TModelStructMenu × Option String :=
  match structObj with
  | StructObj.notAPointer =>
      (default, some "structObj should be a pointer to struct, so as to have addressable fields")
  | StructObj.ptrToNonStruct =>
      (default, none)
  | StructObj.ptrToStruct s =>
      let settings := match customSettings with
        | some cs => cs
        | none => MenuSettings.Init
      let fields := s.filterMap (extractField fieldList asBlacklist)
      if fields.isEmpty then
        (default, some "ERROR: No fields to expose to users in struct")
      else
        ({ menuFields := fields
           cursor := 0
           isEditingValue := false
           QuitWithCancel := false
           Settings := settings }, none)

/-! ### Write-back (`ParseStruct`) -/

/-- `reflect.Value.FieldByName`: the first field with the given name. -/
def fieldByName : GoStruct → String → Option StructField
  | [], _ => none
  | f :: rest, n => if f.name = n then some f else fieldByName rest n

/-- Overwrite the value of the first field with the given name. -/
def setFieldByName : GoStruct → String → GoValue → GoStruct
  | [], _, _ => []
  | f :: rest, n, v =>
    if f.name = n then { f with value := v } :: rest else f :: setFieldByName rest n v

/-- One iteration of the `ParseStruct` loop for a single descriptor: the
resulting destination struct, and `some` error exactly when the iteration
executes the `return fmt.Errorf` for an int-kind destination whose stored
value is not an `int` (every other problem is skipped non-fatally). -/
def processField (d : GoStruct) (mf : menuField) : GoStruct × Option String :=
  match fieldByName d mf.name with
  | none => (d, none)
  | some f =>
    if !f.canSet then (d, none)
    else
      match f.kind with
      | GoKind.kInt =>
        match mf.value with
        | GoValue.vInt n => (setFieldByName d mf.name (GoValue.vInt n), none)
        | _ => (d, some ("type mismatch for field " ++ mf.name ++ ": expected int"))
      | GoKind.kBool =>
        match mf.value with
        | GoValue.vBool b => (setFieldByName d mf.name (GoValue.vBool b), none)
        | GoValue.vInt n => (setFieldByName d mf.name (GoValue.vBool (n ≠ 0)), none)
        | GoValue.vStr s => (setFieldByName d mf.name (GoValue.vBool (s ≠ "f")), none)
      | GoKind.kString =>
        match mf.value with
        | GoValue.vStr s => (setFieldByName d mf.name (GoValue.vStr s), none)
        | _ => (d, none)
      | GoKind.kOther => (d, none)

/-- The `ParseStruct` field loop: processes descriptors in order, stopping
with the error (and the destination as mutated so far) when an iteration
hits the fatal int type-mismatch return. -/
def parseLoop : GoStruct → List menuField → GoStruct × Option String
  | d, [] => (d, none)
  | d, mf :: rest =>
    match processField d mf with
    | (d', Option.none) => parseLoop d' rest
    | (d', Option.some e) => (d', some e)

/-- `ParseStruct` from the source: checks the destination is a pointer to a
struct, then runs the field loop on the dereferenced struct. -/
def TModelStructMenu.ParseStruct (m : TModelStructMenu) (obj : StructObj) :
    StructObj × Option String :=
  match obj with
  | StructObj.ptrToStruct d =>
    let r := parseLoop d m.menuFields
    (StructObj.ptrToStruct r.1, r.2)
  | o => (o, some "ERROR: expected a pointer to a struct")

/-! ### The update function (`Update`) -/

/-- The `enter` branch of `Update`: toggle edit mode, and when commit just
happened (now navigating) and `TabAfterEntry` is set, advance the cursor. -/
def enterStep (m : TModelStructMenu) : TModelStructMenu :=
  let m1 := { m with isEditingValue := !m.isEditingValue }
  if m1.Settings.TabAfterEntry && !m1.isEditingValue then m1.decrCursor else m1

/-- The backspace branch of `Update` (reached in either mode): drop the
last character of a string value; for a non-zero int value, drop the last
decimal digit via `strconv` string surgery, multiplying the sign back in. -/
def backspaceStep (m : TModelStructMenu) : TModelStructMenu :=
  match m.getCursorFieldValue with
  | GoValue.vStr stringVal =>
    if stringVal.length > 0 then
      m.setCursorFieldValue (GoValue.vStr ⟨stringVal.data.dropLast⟩)
    else m
  | GoValue.vInt val =>
    if val ≠ 0 then
      let intSign : Int := if val < 0 then -1 else 1
      let stringVal := goItoa val
      let newVal : List Char :=
        if intSign = 1 then stringVal.data.dropLast
        else (stringVal.data.drop 1).dropLast
      if newVal.length = 0 then
        m.setCursorFieldValue (GoValue.vInt 0)
      else
        match goAtoi ⟨newVal⟩ with
        | none => m
        | some convValue => m.setCursorFieldValue (GoValue.vInt (convValue * intSign))
    else m
  | _ => m

/-- The editing-mode type switch of `Update` for a non-enter, non-backspace
key `s` (note the `bool` case sets `false` on any unrecognized key, and the
`string` case appends whatever `msg.String()` returned). -/
def editingStep (m : TModelStructMenu) (s : String) : TModelStructMenu :=
  match m.getCursorFieldValue with
  | GoValue.vBool b =>
    if s = "t" ∨ s = "1" then m.setCursorFieldValue (GoValue.vBool true)
    else if s = "f" ∨ s = "0" then m.setCursorFieldValue (GoValue.vBool false)
    else if s = "right" ∨ s = "left" then m.setCursorFieldValue (GoValue.vBool (!b))
    else m.setCursorFieldValue (GoValue.vBool false)
  | GoValue.vStr v => m.setCursorFieldValue (GoValue.vStr (v ++ s))
  | GoValue.vInt v =>
    if s = "right" ∨ s = "l" then m.setCursorFieldValue (GoValue.vInt (v + 1))
    else if s = "left" ∨ s = "h" then m.setCursorFieldValue (GoValue.vInt (v - 1))
    else if isDigitKeyStr s then
      if v = 0 then
        match goAtoi s with
        | none => m
        | some convValue => m.setCursorFieldValue (GoValue.vInt convValue)
      else
        match goAtoi (goItoa v ++ s) with
        | none => m.setCursorFieldValue (GoValue.vInt 0)
        | some intValue => m.setCursorFieldValue (GoValue.vInt intValue)
    else m

/-- The navigating-mode key switch of `Update` for a non-enter,
non-backspace key `s`.  Note the digit case sets the value under the cursor
to an `int` whatever the field's current dynamic type is. -/
def navigatingStep (m : TModelStructMenu) (s : String) : TModelStructMenu × TeaCmd :=
  if s = "s" then (m, TeaCmd.quit)
  else if s = "ctrl+c" ∨ s = "q" then ({ m with QuitWithCancel := true }, TeaCmd.quit)
  else if s = "up" ∨ s = "k" ∨ s = "shift+tab" then (m.incrCursor, TeaCmd.none)
  else if s = "down" ∨ s = "j" ∨ s = "tab" then (m.decrCursor, TeaCmd.none)
  else if isDigitKeyStr s then
    match goAtoi s with
    | none => (m.setCursorFieldValue (GoValue.vInt 0), TeaCmd.none)
    | some intValue => (m.setCursorFieldValue (GoValue.vInt intValue), TeaCmd.none)
  else (m, TeaCmd.none)

/-- `Update` from the source, translated branch by branch: the `enter`
check comes first, then the backspace check (which applies in both modes),
then the editing-mode or navigating-mode switch. -/
def TModelStructMenu.Update (m : TModelStructMenu) (msg : TeaMsg) :
    TModelStructMenu × TeaCmd :=
  match msg with
  | TeaMsg.other => (m, TeaCmd.none)
  | TeaMsg.key KeyMsg.backspace => (backspaceStep m, TeaCmd.none)
  | TeaMsg.key (KeyMsg.str s) =>
    if s = "enter" then (enterStep m, TeaCmd.none)
    else if m.isEditingValue then (editingStep m s, TeaCmd.none)
    else navigatingStep m s

/-- `Init` from the source: no command. -/
def TModelStructMenu.Init (_ : TModelStructMenu) : TeaCmd := TeaCmd.none

/-- Fold a list of key events through `Update`, keeping the model. -/
def updateKeys (m : TModelStructMenu) (ks : List KeyMsg) : TModelStructMenu :=
  ks.foldl (fun st k => (st.Update (TeaMsg.key k)).1) m

/-! ### The renderer (`View`) -/

/-- Left-justified padding to a minimum width, as `fmt`'s `%-*s` verb. -/
def padRight (s : String) (w : Nat) : String :=
  s ++ ⟨List.replicate (w - s.length) ' '⟩

/-- The longest display name among the fields (the source's progressive
maximum starting from 0). -/
def maxFieldNameLen (fields : List menuField) : Nat :=
  fields.foldl (fun acc f => max acc f.getFieldName.length) 0

/-- One rendered menu row: cursor marker, bracketed padded display name,
and the value column.  A string value being edited gets a hardcoded `"|"`
appended; bool and int values always render raw. -/
def viewRow (m : TModelStructMenu) (w : Nat) (i : Nat) (choice : menuField) : String :=
  let cursor :=
    if m.cursor = (i : Int) then
      if m.isEditingValue then m.Settings.EditCursorChar else m.Settings.NavCursorChar
    else "  "
  let value :=
    match m.getFieldValueAtIndex (i : Int) with
    | GoValue.vStr v =>
      if m.isEditingValue && m.cursor = (i : Int) then v ++ "|" else v
    | GoValue.vBool b => goFormatBool b
    | GoValue.vInt n => goItoa n
  cursor ++ " ⟦ " ++ padRight choice.getFieldName w ++ " ⟧: " ++ value ++ "\n"

/-- The rendered rows for the fields, numbered from `i`. -/
def viewRows (m : TModelStructMenu) (w : Nat) : Nat → List menuField → String
  | _, [] => ""
  | i, f :: rest => viewRow m w i f ++ viewRows m w (i + 1) rest

/-- `View` from the source.  The source also computes a `cursorEmpty`
string from the cursor markers which is never used in the rendered output;
that dead computation is omitted. -/
def TModelStructMenu.View (m : TModelStructMenu) : String :=
  let s0 : String := if m.Settings.Header ≠ "" then m.Settings.Header ++ "\n\n" else ""
  let s1 := s0 ++ "\n"
  let w := maxFieldNameLen m.menuFields
  let s2 := s1 ++ viewRows m w 0 m.menuFields
  let s3 := s2 ++ "\n" ++
    (if (m.getFieldAtIndex m.cursor).smDes ≠ "" then (m.getFieldAtIndex m.cursor).smDes
     else "") ++ "\n"
  s3 ++ "\nPress s to save and quit.\nPress q to quit without saving.\n"

/-! ### Predicates used by the claims -/

/-- The descriptor that extraction builds for a supported field. -/
def toMenuField (f : StructField) : menuField :=
  { value := f.value, name := f.name, smName := f.smname, smDes := f.smdes }

/-- Two structs have the same shape: equal field names, kinds, settability
and tags position by position (values are unconstrained). -/
def sameShapeB : GoStruct → GoStruct → Bool
  | [], [] => true
  | f :: fs, g :: gs =>
    f.name == g.name && f.kind == g.kind && f.canSet == g.canSet &&
    f.smname == g.smname && f.smdes == g.smdes && sameShapeB fs gs
  | _, _ => false

/-- A descriptor hits the fatal branch of the `ParseStruct` loop on a given
destination: its name resolves to a settable destination field of int kind
while the stored value is not an `int`. -/
def intMismatchB (d : GoStruct) (mf : menuField) : Bool :=
  match fieldByName d mf.name with
  | some f =>
    f.canSet && f.kind == GoKind.kInt &&
    (match mf.value with | GoValue.vInt _ => false | _ => true)
  | none => false

/-- Dropping the last decimal digit of an integer, sign preserved, 0 when
no digits remain: the arithmetic meaning of the backspace surgery on an
int-valued field. -/
def intDropLastDigit (n : Int) : Int :=
  if 0 ≤ n then ((n.toNat / 10 : Nat) : Int) else -(((-n).toNat / 10 : Nat) : Int)

/-- Whether a message is a digit key event. -/
def msgIsDigitKey : TeaMsg → Bool
  | TeaMsg.key (KeyMsg.str s) => isDigitKeyStr s
  | _ => false

/-- The key strings that move the cursor toward index 0. -/
def upKeys : List String := ["up", "k", "shift+tab"]

/-- The key strings that move the cursor toward the last index. -/
def downKeys : List String := ["down", "j", "tab"]

/-! ### Concrete records and menus used as test inputs -/

/-- The record of the end-to-end scenario. -/
def s7 : GoStruct :=
  [⟨"Name", GoKind.kString, GoValue.vStr "", true, "", ""⟩,
   ⟨"Age", GoKind.kInt, GoValue.vInt 0, true, "", ""⟩,
   ⟨"Active", GoKind.kBool, GoValue.vBool false, true, "", ""⟩]

/-- The menu extracted from `s7` with an empty filter and default
settings. -/
def m7 : TModelStructMenu :=
  (InitialTModelStructMenu (StructObj.ptrToStruct s7) [] false none).1

/-- The key sequence of the end-to-end scenario. -/
def keys7 : List KeyMsg :=
  [KeyMsg.str "enter", KeyMsg.str "A", KeyMsg.str "l", KeyMsg.str "i", KeyMsg.str "c",
   KeyMsg.str "e", KeyMsg.str "enter"]

/-- A record with a single int field at 0. -/
def s4 : GoStruct := [⟨"Num", GoKind.kInt, GoValue.vInt 0, true, "", ""⟩]

/-- The menu extracted from `s4`. -/
def m4 : TModelStructMenu :=
  (InitialTModelStructMenu (StructObj.ptrToStruct s4) [] false none).1

/-- A record with a single string field. -/
def s2 : GoStruct := [⟨"Name", GoKind.kString, GoValue.vStr "hi", true, "", ""⟩]

/-- The menu extracted from `s2`. -/
def m2 : TModelStructMenu :=
  (InitialTModelStructMenu (StructObj.ptrToStruct s2) [] false none).1

/-- A menu whose two descriptors both hold strings. -/
def m5 : TModelStructMenu :=
  { menuFields := [⟨GoValue.vStr "x", "A", "", ""⟩, ⟨GoValue.vStr "y", "B", "", ""⟩]
    cursor := 0
    isEditingValue := false
    QuitWithCancel := false
    Settings := MenuSettings.Init }

/-- A destination whose field `A` has int kind (mismatching `m5`'s string
descriptor for `A`) and whose field `B` has string kind. -/
def d5 : GoStruct :=
  [⟨"A", GoKind.kInt, GoValue.vInt 1, true, "", ""⟩,
   ⟨"B", GoKind.kString, GoValue.vStr "old", true, "", ""⟩]

/-- A menu editing its string field `Name`, with a custom caret symbol. -/
def m8 : TModelStructMenu :=
  { menuFields := [⟨GoValue.vStr "ab", "Name", "", ""⟩, ⟨GoValue.vInt 7, "Num", "", ""⟩]
    cursor := 0
    isEditingValue := true
    QuitWithCancel := false
    Settings := ⟨"> ", ">>", "^", true, ""⟩ }

/-- The same menu as `m8` but editing the int field `Num`. -/
def m8i : TModelStructMenu := { m8 with cursor := 1 }

/-- A navigating menu with one int field holding -42. -/
def mN42 : TModelStructMenu :=
  { menuFields := [⟨GoValue.vInt (-42), "N", "", ""⟩]
    cursor := 0
    isEditingValue := false
    QuitWithCancel := false
    Settings := MenuSettings.Init }

/-- An editing menu with one int field holding 5. -/
def mE5 : TModelStructMenu :=
  { menuFields := [⟨GoValue.vInt 5, "N", "", ""⟩]
    cursor := 0
    isEditingValue := true
    QuitWithCancel := false
    Settings := MenuSettings.Init }

/-- A destination of the same shape as `s7` with different values. -/
def dz : GoStruct :=
  [⟨"Name", GoKind.kString, GoValue.vStr "zz", true, "", ""⟩,
   ⟨"Age", GoKind.kInt, GoValue.vInt 99, true, "", ""⟩,
   ⟨"Active", GoKind.kBool, GoValue.vBool true, true, "", ""⟩]

/-! ## Theorems -/

/-! ### Small helper lemmas about field updates -/

/-- Setting a field value never changes the number of fields. -/
theorem length_setFieldValueAtIndex (m : TModelStructMenu) (i : Int) (v : GoValue) :
    (m.setFieldValueAtIndex i v).menuFields.length = m.menuFields.length := by
  simp [TModelStructMenu.setFieldValueAtIndex]

/-- Setting a field value never moves the cursor. -/
theorem cursor_setFieldValueAtIndex (m : TModelStructMenu) (i : Int) (v : GoValue) :
    (m.setFieldValueAtIndex i v).cursor = m.cursor := rfl

/-! ### Claim theorems with concrete inputs -/

/-- C3: for a pointer to a non-struct, `InitialTModelStructMenu` returns
the zero model together with a nil error, whatever the filter and settings
arguments are — the failure is only printed, never surfaced as an error
value (the code contradicts the documented `NotARecord` failure). -/
theorem nonstruct_target_returns_nil_error (fieldList : List String) (asBlacklist : Bool)
    (customSettings : Option MenuSettings) :
    InitialTModelStructMenu StructObj.ptrToNonStruct fieldList asBlacklist customSettings =
      (default, none) := rfl

/-- C7: from the record Name:"", Age:0, Active:false extracted with an
empty filter and default settings, the key sequence enter, A, l, i, c, e,
enter sets Name to "Alice", returns to navigating mode, and advances the
cursor from the Name field (index 0) to the Age field (index 1). -/
theorem end_to_end_alice :
    (updateKeys m7 keys7).menuFields.map menuField.value =
      [GoValue.vStr "Alice", GoValue.vInt 0, GoValue.vBool false]
    ∧ (updateKeys m7 keys7).isEditingValue = false
    ∧ m7.cursor = 0 ∧ (updateKeys m7 keys7).cursor = 1
    ∧ (m7.menuFields.getD 0 default).name = "Name"
    ∧ (m7.menuFields.getD 1 default).name = "Age"
    ∧ m7.Settings.TabAfterEntry = true := by decide

/-- C4 (counterexample): while editing the integer field of `m4` (value 0),
the key sequence minus, 4, 2, enter commits the value 42, not -42: there is
no edit buffer and the minus key is ignored. -/
theorem integer_edit_minus42_counterexample :
    (updateKeys m4 [KeyMsg.str "enter", KeyMsg.str "-", KeyMsg.str "4", KeyMsg.str "2",
        KeyMsg.str "enter"]).menuFields.map menuField.value = [GoValue.vInt 42]
    ∧ GoValue.vInt 42 ≠ GoValue.vInt (-42) := by decide

/-- C4 (amended): digit keys while editing an integer field edit the value
directly (no edit buffer): the minus key is ignored, the sequence minus, 4,
2, enter yields 42, and enter with nothing typed leaves the value
unchanged, so a field at 0 commits as 0. -/
theorem integer_edit_direct_value_behavior :
    (updateKeys m4 [KeyMsg.str "enter", KeyMsg.str "-"]) = updateKeys m4 [KeyMsg.str "enter"]
    ∧ (updateKeys m4 [KeyMsg.str "enter", KeyMsg.str "-", KeyMsg.str "4", KeyMsg.str "2",
        KeyMsg.str "enter"]).menuFields.map menuField.value = [GoValue.vInt 42]
    ∧ (updateKeys m4 [KeyMsg.str "enter", KeyMsg.str "enter"]).menuFields.map menuField.value =
        [GoValue.vInt 0] := by decide

/-- C8: the rendered value column of a string field being edited is the
text followed by a hardcoded bar character even though the configured
`IBeamChar` is a caret, and an integer field being edited is rendered as
its bare value with no caret at all; non-current fields show raw values. -/
theorem view_hardcoded_caret :
    m8.Settings.IBeamChar = "^"
    ∧ m8.View = "\n>> ⟦ Name ⟧: ab|\n   ⟦ Num  ⟧: 7\n\n\n\nPress s to save and quit.\nPress q to quit without saving.\n"
    ∧ m8i.View = "\n   ⟦ Name ⟧: ab\n>> ⟦ Num  ⟧: 7\n\n\n\nPress s to save and quit.\nPress q to quit without saving.\n" :=
  ⟨rfl, rfl, rfl⟩

/-- C2 (counterexample): in navigating mode with the cursor on a string
field, pressing the digit key 5 replaces the field's string value with the
int 5 — the stored value's dynamic type no longer matches the field's
kind. -/
theorem navDigit_string_field_counterexample :
    m2.isEditingValue = false
    ∧ m2.menuFields.map (fun f => valueVariant f.value) = [GoKind.kString]
    ∧ (m2.Update (TeaMsg.key (KeyMsg.str "5"))).1.menuFields.map
        (fun f => valueVariant f.value) = [GoKind.kInt]
    ∧ GoKind.kInt ≠ GoKind.kString := by decide

/-- C5 (counterexample): writing `m5` (whose descriptor `A` holds a string)
into `d5` (whose field `A` has int kind) aborts `ParseStruct` at `A`: an
error is returned and the later settable string field `B` keeps its old
value instead of receiving the descriptor value "y". -/
theorem int_mismatch_abort_counterexample :
    (m5.ParseStruct (StructObj.ptrToStruct d5)).1 = StructObj.ptrToStruct d5
    ∧ (m5.ParseStruct (StructObj.ptrToStruct d5)).2.isSome = true
    ∧ (d5.getD 1 default).canSet = true
    ∧ (d5.getD 1 default).value = GoValue.vStr "old"
    ∧ m5.menuFields.getD 1 default = ⟨GoValue.vStr "y", "B", "", ""⟩ := by decide

/-! ### Decimal conversion lemmas -/

/-- The fuel argument of `natToDigitsRevFuel` is irrelevant once it is at
least the number being converted. -/
theorem natToDigitsRevFuel_congr (f₁ : Nat) :
    ∀ f₂ n, n ≤ f₁ → n ≤ f₂ → natToDigitsRevFuel f₁ n = natToDigitsRevFuel f₂ n := by
  induction f₁ with
  | zero =>
    intro f₂ n h₁ _
    have hn : n = 0 := Nat.le_zero.mp h₁
    subst hn
    cases f₂ <;> simp [natToDigitsRevFuel]
  | succ f ih =>
    intro f₂ n h₁ h₂
    by_cases hn : n = 0
    · subst hn
      cases f₂ <;> simp [natToDigitsRevFuel]
    · cases f₂ with
      | zero => omega
      | succ g =>
        have hlt : n / 10 < n := Nat.div_lt_self (Nat.pos_of_ne_zero hn) (by norm_num)
        simp only [natToDigitsRevFuel, if_neg hn]
        rw [ih g (n / 10) (by omega) (by omega)]

/-- Unfolding equation of `natToDigitsRev` for a positive number. -/
theorem natToDigitsRev_pos (n : Nat) (h : 0 < n) :
    natToDigitsRev n = digitChar (n % 10) :: natToDigitsRev (n / 10) := by
  unfold natToDigitsRev
  cases n with
  | zero => omega
  | succ k =>
    have hlt : (k + 1) / 10 < k + 1 := Nat.div_lt_self (by omega) (by norm_num)
    simp only [natToDigitsRevFuel, Nat.succ_ne_zero, if_neg, reduceIte]
    rw [natToDigitsRevFuel_congr k ((k + 1) / 10) ((k + 1) / 10) (by omega) (by omega)]

/-- The big-endian digits of a positive number end with its last digit. -/
theorem natDigits_pos (n : Nat) (h : 0 < n) :
    natDigits n = natDigits (n / 10) ++ [digitChar (n % 10)] := by
  unfold natDigits
  rw [natToDigitsRev_pos n h]
  simp

/-- Basic facts about the digit characters, for digit values below ten. -/
theorem digit_facts :
    ∀ d, d < 10 → (digitChar d).isDigit = true ∧ (digitChar d).toNat = 48 + d ∧
      digitChar d ≠ '-' ∧ digitChar d ≠ '+' := by decide

/-- `parseNat` evaluated on a non-empty all-digit list. -/
theorem parseNat_eq_some (cs : List Char) (hne : cs ≠ [])
    (hall : cs.all Char.isDigit = true) :
    parseNat cs = some (cs.foldl (fun acc c => acc * 10 + (c.toNat - 48)) 0) := by
  unfold parseNat
  rw [if_neg hne, if_pos hall]

/-- A successful `parseNat` implies the input was all digits. -/
theorem parseNat_some_all (cs : List Char) (k : Nat) (h : parseNat cs = some k) :
    cs.all Char.isDigit = true := by
  unfold parseNat at h
  by_cases h1 : cs = []
  · rw [if_pos h1] at h; cases h
  · rw [if_neg h1] at h
    by_cases h2 : cs.all Char.isDigit
    · exact h2
    · rw [if_neg h2] at h; cases h

/-- `parseNat` on a single digit character. -/
theorem parseNat_digitChar : ∀ d, d < 10 → parseNat [digitChar d] = some d := by decide

/-- Appending one digit character multiplies the parsed value by ten and
adds the digit. -/
theorem parseNat_snoc (cs : List Char) (k d : Nat) (hd : d < 10)
    (h : parseNat cs = some k) :
    parseNat (cs ++ [digitChar d]) = some (k * 10 + d) := by
  have hall := parseNat_some_all cs k h
  have hne : cs ≠ [] := by
    intro hc; subst hc; simp [parseNat] at h
  have hfold : cs.foldl (fun acc c => acc * 10 + (c.toNat - 48)) 0 = k := by
    have he := parseNat_eq_some cs hne hall
    rw [he] at h
    exact Option.some_injective _ h
  have hadd : (cs ++ [digitChar d]).all Char.isDigit = true := by
    rw [List.all_append]
    simp [hall, (digit_facts d hd).1]
  rw [parseNat_eq_some _ (by simp) hadd]
  rw [List.foldl_append, hfold]
  have ht := (digit_facts d hd).2.1
  simp [List.foldl]
  omega

/-- `parseNat` inverts the digit rendering of a positive number. -/
theorem parseNat_natDigits : ∀ n, 0 < n → parseNat (natDigits n) = some n := by
  intro n
  induction n using Nat.strong_induction_on with
  | _ n ih =>
    intro hn
    rw [natDigits_pos n hn]
    by_cases h10 : n < 10
    · rw [Nat.div_eq_of_lt h10, Nat.mod_eq_of_lt h10]
      have hnil : natDigits 0 = [] := rfl
      rw [hnil, List.nil_append]
      exact parseNat_digitChar n h10
    · have hpos : 0 < n / 10 := Nat.div_pos (le_of_not_lt h10) (by norm_num)
      have hlt : n / 10 < n := Nat.div_lt_self hn (by norm_num)
      have hrec := ih (n / 10) hlt hpos
      rw [parseNat_snoc (natDigits (n / 10)) (n / 10) (n % 10)
        (Nat.mod_lt n (by norm_num)) hrec]
      congr 1
      omega

/-- The digit list of a positive number is non-empty. -/
theorem natDigits_ne_nil (n : Nat) (hn : 0 < n) : natDigits n ≠ [] := by
  rw [natDigits_pos n hn]
  simp

/-- A digit character is neither a minus nor a plus sign. -/
theorem isDigit_ne_sign (c : Char) (h : c.isDigit = true) : c ≠ '-' ∧ c ≠ '+' := by
  constructor <;> intro hc <;> subst hc <;> exact absurd h (by decide)

/-- `goAtoiList` on an all-digit list parsed by `parseNat`. -/
theorem goAtoiList_digits (cs : List Char) (k : Nat) (hp : parseNat cs = some k) :
    goAtoiList cs = some (k : Int) := by
  have hall := parseNat_some_all cs k hp
  cases cs with
  | nil => simp [parseNat] at hp
  | cons c cs' =>
    have hc : c.isDigit = true := by
      have hmem := List.all_eq_true.mp hall c (by simp)
      exact hmem
    obtain ⟨h1, h2⟩ := isDigit_ne_sign c hc
    simp [goAtoiList, h1, h2, hp]

/-! ### List update helpers -/

/-- Writing back the element already at an index leaves the list
unchanged. -/
theorem set_getD_self {α : Type} [Inhabited α] :
    ∀ (l : List α) (i : Nat), i < l.length → l.set i (l.getD i default) = l := by
  intro l
  induction l with
  | nil => intro i hi; simp at hi
  | cons a t ih =>
    intro i hi
    cases i with
    | zero => simp [List.getD]
    | succ j =>
      have hj : j < t.length := by simpa using hi
      have hgd : (a :: t).getD (j + 1) default = t.getD j default := by simp [List.getD]
      rw [hgd]
      show a :: t.set j (t.getD j default) = a :: t
      rw [ih j hj]

/-- Setting the cursor field to the value it already holds is the
identity. -/
theorem setCursorFieldValue_self (m : TModelStructMenu) (h : cursorOk m)
    (v : GoValue) (hv : m.getCursorFieldValue = v) :
    m.setCursorFieldValue v = m := by
  obtain ⟨h1, h2⟩ := h
  have hlt : m.cursor.toNat < m.menuFields.length := by omega
  unfold TModelStructMenu.setCursorFieldValue TModelStructMenu.setFieldValueAtIndex
  unfold TModelStructMenu.getCursorFieldValue TModelStructMenu.getFieldValueAtIndex
    TModelStructMenu.getFieldAtIndex at hv
  rw [← hv]
  rw [show { m.menuFields.getD m.cursor.toNat default with
      value := (m.menuFields.getD m.cursor.toNat default).value } =
      m.menuFields.getD m.cursor.toNat default from rfl]
  rw [set_getD_self _ _ hlt]

/-! ### The backspace transition (claim C9) -/

/-- Backspace on a positive int value under the cursor divides it by ten
(the string surgery of the source drops the last decimal digit). -/
theorem backspaceStep_int_pos (m : TModelStructMenu) (n : Int)
    (hval : m.getCursorFieldValue = GoValue.vInt n) (hpos : 0 < n) :
    backspaceStep m = m.setCursorFieldValue (GoValue.vInt (intDropLastDigit n)) := by
  have hnn : ¬ n < 0 := by omega
  have hn0 : n ≠ 0 := by omega
  have hp : (0:Nat) < n.toNat := by omega
  have hdata : (goItoa n).data = natDigits n.toNat := by
    unfold goItoa natToString
    rw [if_neg hnn, if_neg (by omega : ¬ n.toNat = 0)]
  have hdrop : (goItoa n).data.dropLast = natDigits (n.toNat / 10) := by
    rw [hdata, natDigits_pos n.toNat hp, List.dropLast_concat]
  have hspec : intDropLastDigit n = ((n.toNat / 10 : Nat) : Int) := by
    unfold intDropLastDigit
    rw [if_pos (by omega : (0:Int) ≤ n)]
  have hsign : (if n < 0 then (-1:Int) else 1) = 1 := if_neg hnn
  simp only [backspaceStep, hval]
  rw [if_pos hn0, hsign, if_pos rfl, hdrop]
  by_cases hq : n.toNat / 10 = 0
  · rw [hq, show natDigits 0 = ([] : List Char) from rfl]
    rw [if_pos (show (([] : List Char)).length = 0 from rfl), hspec, hq]
    norm_num
  · have hq' : 0 < n.toNat / 10 := Nat.pos_of_ne_zero hq
    have hne := natDigits_ne_nil _ hq'
    have hlenne : ¬ (natDigits (n.toNat / 10)).length = 0 := by
      intro hc
      exact hne (List.length_eq_zero.mp hc)
    have hatoi : goAtoi ⟨natDigits (n.toNat / 10)⟩ = some ((n.toNat / 10 : Nat) : Int) := by
      show goAtoiList (⟨natDigits (n.toNat / 10)⟩ : String).data = _
      exact goAtoiList_digits _ _ (parseNat_natDigits _ hq')
    rw [if_neg hlenne, hatoi, hspec]
    simp

/-- Backspace on a negative int value under the cursor: the sign character
is stripped before the digit surgery and multiplied back in afterwards. -/
theorem backspaceStep_int_neg (m : TModelStructMenu) (n : Int)
    (hval : m.getCursorFieldValue = GoValue.vInt n) (hneg : n < 0) :
    backspaceStep m = m.setCursorFieldValue (GoValue.vInt (intDropLastDigit n)) := by
  have hn0 : n ≠ 0 := by omega
  have hp : (0:Nat) < (-n).toNat := by omega
  have hdata : (goItoa n).data = '-' :: natDigits (-n).toNat := by
    unfold goItoa natToString
    rw [if_pos hneg, if_neg (by omega : ¬ (-n).toNat = 0)]
    rw [String.data_append]
    rfl
  have hdrop : ((goItoa n).data.drop 1).dropLast = natDigits ((-n).toNat / 10) := by
    rw [hdata]
    show (natDigits (-n).toNat).dropLast = _
    rw [natDigits_pos _ hp, List.dropLast_concat]
  have hspec : intDropLastDigit n = -(((-n).toNat / 10 : Nat) : Int) := by
    unfold intDropLastDigit
    rw [if_neg (by omega : ¬ (0:Int) ≤ n)]
  have hsign : (if n < 0 then (-1:Int) else 1) = -1 := if_pos hneg
  simp only [backspaceStep, hval]
  rw [if_pos hn0, hsign, if_neg (by decide : ¬ ((-1:Int) = 1)), hdrop]
  by_cases hq : (-n).toNat / 10 = 0
  · rw [hq, show natDigits 0 = ([] : List Char) from rfl]
    rw [if_pos (show (([] : List Char)).length = 0 from rfl), hspec, hq]
    norm_num
  · have hq' : 0 < (-n).toNat / 10 := Nat.pos_of_ne_zero hq
    have hne := natDigits_ne_nil _ hq'
    have hlenne : ¬ (natDigits ((-n).toNat / 10)).length = 0 := by
      intro hc
      exact hne (List.length_eq_zero.mp hc)
    have hatoi : goAtoi ⟨natDigits ((-n).toNat / 10)⟩ = some (((-n).toNat / 10 : Nat) : Int) := by
      show goAtoiList (⟨natDigits ((-n).toNat / 10)⟩ : String).data = _
      exact goAtoiList_digits _ _ (parseNat_natDigits _ hq')
    rw [if_neg hlenne, hatoi, hspec]
    simp

/-- C9: backspace is handled even in navigating (non-editing) mode: a
backspace event drops the last character of a string field under the
cursor (no-op on an empty string), and drops the trailing decimal digit of
an integer field under the cursor, sign preserved, resetting to 0 when no
digits remain (arithmetically: signed truncated division by ten). -/
theorem backspace_in_navigating_mode (m : TModelStructMenu) (h : cursorOk m)
    (_hnav : m.isEditingValue = false) :
    (∀ s1, m.getCursorFieldValue = GoValue.vStr s1 →
      (m.Update (TeaMsg.key KeyMsg.backspace)).1 =
        m.setCursorFieldValue (GoValue.vStr ⟨s1.data.dropLast⟩))
    ∧ ∀ n, m.getCursorFieldValue = GoValue.vInt n →
      (m.Update (TeaMsg.key KeyMsg.backspace)).1 =
        m.setCursorFieldValue (GoValue.vInt (intDropLastDigit n)) := by
  have hup : (m.Update (TeaMsg.key KeyMsg.backspace)).1 = backspaceStep m := rfl
  constructor
  · intro s1 hval
    rw [hup]
    by_cases hlen : s1.length > 0
    · simp only [backspaceStep, hval]
      rw [if_pos hlen]
    · have hdl : s1.data.length = 0 := by
        have hz : s1.length = 0 := by omega
        exact hz
      have hdata : s1.data = [] := List.length_eq_zero.mp hdl
      have hsnil : s1 = (⟨[]⟩ : String) := congrArg String.mk hdata
      simp only [backspaceStep, hval]
      rw [if_neg hlen, hdata]
      exact (setCursorFieldValue_self m h _ (by rw [hval, hsnil]; rfl)).symm
  · intro n hval
    rw [hup]
    rcases lt_trichotomy n 0 with hneg | hzero | hpos
    · exact backspaceStep_int_neg m n hval hneg
    · subst hzero
      have hstep : backspaceStep m = m := by
        simp [backspaceStep, hval]
      rw [hstep, show intDropLastDigit 0 = 0 from rfl]
      exact (setCursorFieldValue_self m h _ hval).symm
    · exact backspaceStep_int_pos m n hval hpos

/-- C9 witness: on the concrete navigating menu holding -42, backspace
yields -4. -/
theorem backspace_in_navigating_mode_witness :
    (mN42.Update (TeaMsg.key KeyMsg.backspace)).1 =
      mN42.setCursorFieldValue (GoValue.vInt (intDropLastDigit (-42)))
    ∧ intDropLastDigit (-42) = -4 :=
  ⟨(backspace_in_navigating_mode mN42 (by decide) rfl).2 (-42) rfl, by decide⟩

/-! ### Arrow-key editing of integer fields (claim C10) -/

/-- Reading back an index just written. -/
theorem getD_set_eq {α : Type} [Inhabited α] :
    ∀ (l : List α) (i : Nat) (x : α), i < l.length → (l.set i x).getD i default = x := by
  intro l
  induction l with
  | nil => intro i x hi; simp at hi
  | cons a t ih =>
    intro i x hi
    cases i with
    | zero => rfl
    | succ j =>
      show (t.set j x).getD j default = x
      exact ih j x (by simpa using hi)

/-- The cursor field after writing the cursor field. -/
theorem getCursor_setCursor (m : TModelStructMenu) (v : GoValue) (h : cursorOk m) :
    (m.setCursorFieldValue v).getCursorFieldValue = v := by
  obtain ⟨h1, h2⟩ := h
  have hlt : m.cursor.toNat < m.menuFields.length := by omega
  show ((m.menuFields.set m.cursor.toNat
    { m.menuFields.getD m.cursor.toNat default with value := v }).getD
      m.cursor.toNat default).value = v
  rw [getD_set_eq _ _ _ hlt]

/-- In editing mode, a non-enter non-backspace key dispatches to the
editing type switch. -/
theorem update_editing_str_key (m : TModelStructMenu) (s : String)
    (hedit : m.isEditingValue = true) (hs : s ≠ "enter") :
    (m.Update (TeaMsg.key (KeyMsg.str s))).1 = editingStep m s := by
  simp only [TModelStructMenu.Update]
  rw [if_neg hs, if_pos hedit]

/-- C10: while editing an integer field, the right and l keys increment
the value by exactly one and the left and h keys decrement it by exactly
one, for every current value (no bound or clamp on either side). -/
theorem integer_edit_arrow_keys (m : TModelStructMenu) (n : Int) (h : cursorOk m)
    (hedit : m.isEditingValue = true) (hval : m.getCursorFieldValue = GoValue.vInt n) :
    (m.Update (TeaMsg.key (KeyMsg.str "right"))).1.getCursorFieldValue = GoValue.vInt (n + 1)
    ∧ (m.Update (TeaMsg.key (KeyMsg.str "l"))).1.getCursorFieldValue = GoValue.vInt (n + 1)
    ∧ (m.Update (TeaMsg.key (KeyMsg.str "left"))).1.getCursorFieldValue = GoValue.vInt (n - 1)
    ∧ (m.Update (TeaMsg.key (KeyMsg.str "h"))).1.getCursorFieldValue = GoValue.vInt (n - 1) := by
  refine ⟨?_, ?_, ?_, ?_⟩
  · rw [update_editing_str_key m "right" hedit (by decide)]
    simp only [editingStep, hval]
    rw [if_pos (Or.inl trivial : True ∨ "right" = "l")]
    exact getCursor_setCursor m _ h
  · rw [update_editing_str_key m "l" hedit (by decide)]
    simp only [editingStep, hval]
    rw [if_pos (Or.inr trivial : "l" = "right" ∨ True)]
    exact getCursor_setCursor m _ h
  · rw [update_editing_str_key m "left" hedit (by decide)]
    simp only [editingStep, hval]
    rw [if_pos (Or.inl trivial : True ∨ "left" = "h")]
    exact getCursor_setCursor m _ h
  · rw [update_editing_str_key m "h" hedit (by decide)]
    simp only [editingStep, hval]
    rw [if_pos (Or.inr trivial : "h" = "left" ∨ True)]
    exact getCursor_setCursor m _ h

/-- C10 witness: on the concrete editing menu holding 5, right yields 6
and h yields 4. -/
theorem integer_edit_arrow_keys_witness :
    (mE5.Update (TeaMsg.key (KeyMsg.str "right"))).1.getCursorFieldValue = GoValue.vInt 6
    ∧ (mE5.Update (TeaMsg.key (KeyMsg.str "h"))).1.getCursorFieldValue = GoValue.vInt 4 := by
  have h := integer_edit_arrow_keys mE5 5 (by decide) rfl rfl
  exact ⟨by simpa using h.1, by simpa using h.2.2.2⟩

/-! ### Preservation of value variants (claim C2) -/

/-- Cursor movement does not touch the field list. -/
theorem menuFields_incrCursor (m : TModelStructMenu) :
    m.incrCursor.menuFields = m.menuFields := by
  unfold TModelStructMenu.incrCursor
  split <;> rfl

/-- Cursor movement does not touch the field list. -/
theorem menuFields_decrCursor (m : TModelStructMenu) :
    m.decrCursor.menuFields = m.menuFields := by
  unfold TModelStructMenu.decrCursor
  split <;> rfl

/-- The enter transition does not touch the field list. -/
theorem menuFields_enterStep (m : TModelStructMenu) :
    (enterStep m).menuFields = m.menuFields := by
  simp only [enterStep]
  split
  · rw [menuFields_decrCursor]
  · rfl

/-- Overwriting one entry with a value of the same variant preserves the
variant of every entry. -/
theorem map_variant_set_list :
    ∀ (l : List menuField) (i : Nat) (v : GoValue),
      valueVariant v = valueVariant ((l.getD i default).value) →
      (l.set i { l.getD i default with value := v }).map (fun f => valueVariant f.value) =
        l.map (fun f => valueVariant f.value) := by
  intro l
  induction l with
  | nil => intro i v _; rfl
  | cons a t ih =>
    intro i v hv
    cases i with
    | zero =>
      show valueVariant v :: t.map (fun f => valueVariant f.value) =
        valueVariant a.value :: t.map (fun f => valueVariant f.value)
      rw [show valueVariant v = valueVariant a.value from hv]
    | succ j =>
      show valueVariant a.value :: (t.set j { t.getD j default with value := v }).map
          (fun f => valueVariant f.value) =
        valueVariant a.value :: t.map (fun f => valueVariant f.value)
      rw [ih j v hv]

/-- Writing a same-variant value at the cursor preserves every field's
variant. -/
theorem map_variant_setCursor (m : TModelStructMenu) (v : GoValue)
    (hv : valueVariant v = valueVariant m.getCursorFieldValue) :
    (m.setCursorFieldValue v).menuFields.map (fun f => valueVariant f.value) =
      m.menuFields.map (fun f => valueVariant f.value) :=
  map_variant_set_list m.menuFields m.cursor.toNat v hv

/-- C2 (amended): the dynamic-type variant of every field's stored value is
preserved by Update whenever the menu is editing, or the key is not a
digit, or the field under the cursor currently holds an integer; the one
remaining case — the navigating-mode digit shortcut on a non-integer
field — overwrites the value with an int, violating the invariant. -/
theorem update_preserves_value_variants (m : TModelStructMenu) (msg : TeaMsg)
    (h : m.isEditingValue = true ∨ msgIsDigitKey msg = false ∨
      valueVariant m.getCursorFieldValue = GoKind.kInt) :
    (m.Update msg).1.menuFields.map (fun f => valueVariant f.value) =
      m.menuFields.map (fun f => valueVariant f.value) := by
  cases msg with
  | other => rfl
  | key k =>
    cases k with
    | backspace =>
      show (backspaceStep m).menuFields.map (fun f => valueVariant f.value) = _
      cases hval : m.getCursorFieldValue with
      | vStr s1 =>
        simp only [backspaceStep, hval]
        split
        · exact map_variant_setCursor m _ (by simp [hval, valueVariant])
        · rfl
      | vBool b =>
        simp only [backspaceStep, hval]
      | vInt n =>
        simp only [backspaceStep, hval]
        repeat' split
        all_goals first
          | rfl
          | exact map_variant_setCursor m _ (by simp [hval, valueVariant])
    | str s =>
      simp only [TModelStructMenu.Update]
      by_cases hs : s = "enter"
      · rw [if_pos hs]
        show (enterStep m).menuFields.map (fun f => valueVariant f.value) = _
        rw [menuFields_enterStep]
      · rw [if_neg hs]
        by_cases hedit : m.isEditingValue = true
        · rw [if_pos hedit]
          show (editingStep m s).menuFields.map (fun f => valueVariant f.value) = _
          cases hval : m.getCursorFieldValue with
          | vBool b =>
            simp only [editingStep, hval]
            repeat' split
            all_goals exact map_variant_setCursor m _ (by simp [hval, valueVariant])
          | vStr v1 =>
            simp only [editingStep, hval]
            exact map_variant_setCursor m _ (by simp [hval, valueVariant])
          | vInt n =>
            simp only [editingStep, hval]
            repeat' split
            all_goals first
              | rfl
              | exact map_variant_setCursor m _ (by simp [hval, valueVariant])
        · rw [if_neg hedit]
          rcases h with h1 | h2 | h3
          · exact absurd h1 hedit
          · have hnd : isDigitKeyStr s = false := by simpa [msgIsDigitKey] using h2
            simp only [navigatingStep]
            repeat' split
            all_goals first
              | rfl
              | rw [menuFields_incrCursor]
              | rw [menuFields_decrCursor]
              | simp_all
          · simp only [navigatingStep]
            repeat' split
            all_goals first
              | rfl
              | rw [menuFields_incrCursor]
              | rw [menuFields_decrCursor]
              | exact map_variant_setCursor m _ h3.symm

/-- C2 witness: on the concrete string-field menu, a non-digit key
preserves all variants. -/
theorem update_preserves_value_variants_witness :
    (m2.Update (TeaMsg.key (KeyMsg.str "k"))).1.menuFields.map
      (fun f => valueVariant f.value) =
      m2.menuFields.map (fun f => valueVariant f.value) :=
  update_preserves_value_variants m2 (TeaMsg.key (KeyMsg.str "k"))
    (Or.inr (Or.inl (by decide)))

/-! ### Abort behaviour of the write-back loop (claim C5) -/

/-- One `ParseStruct` iteration returns an error exactly on the int-kind
type mismatch, in which case the destination is left untouched. -/
theorem processField_spec (d : GoStruct) (mf : menuField) :
    (intMismatchB d mf = true → processField d mf =
      (d, some ("type mismatch for field " ++ mf.name ++ ": expected int")))
    ∧ (intMismatchB d mf = false → (processField d mf).2 = none) := by
  unfold intMismatchB processField
  cases hf : fieldByName d mf.name with
  | none => simp
  | some f =>
    cases hcs : f.canSet with
    | false => simp [hcs]
    | true =>
      cases hk : f.kind <;> cases hv : mf.value <;> simp [hcs, hk, hv]

/-- C5 (amended): the write-back loop continues with the remaining
descriptors after any non-fatal per-field issue (missing field, not
settable, bool or string mismatches, unsupported kinds), and aborts with an
error -- leaving the destination as already mutated and the remaining
descriptors unprocessed -- exactly on an integer-kind type mismatch. -/
theorem writeback_abort_characterization (d : GoStruct) (mf : menuField)
    (rest : List menuField) :
    (intMismatchB d mf = false →
      parseLoop d (mf :: rest) = parseLoop (processField d mf).1 rest)
    ∧ (intMismatchB d mf = true →
      (parseLoop d (mf :: rest)).1 = d ∧ (parseLoop d (mf :: rest)).2.isSome = true) := by
  constructor
  · intro hF
    have h2 := (processField_spec d mf).2 hF
    rcases hpf : processField d mf with ⟨d', e⟩
    rw [hpf] at h2
    simp at h2
    subst h2
    simp only [parseLoop, hpf]
  · intro hT
    have h1 := (processField_spec d mf).1 hT
    simp only [parseLoop, h1]
    simp

/-- C5 witness: on `d5`, processing the string descriptor for `B` continues
the loop, while the mismatching descriptor for `A` aborts it. -/
theorem writeback_abort_characterization_witness :
    parseLoop d5 [⟨GoValue.vStr "y", "B", "", ""⟩] =
      parseLoop (processField d5 ⟨GoValue.vStr "y", "B", "", ""⟩).1 []
    ∧ (parseLoop d5 [⟨GoValue.vStr "x", "A", "", ""⟩]).1 = d5
    ∧ (parseLoop d5 [⟨GoValue.vStr "x", "A", "", ""⟩]).2.isSome = true := by
  refine ⟨(writeback_abort_characterization d5 _ []).1 (by decide), ?_, ?_⟩
  · exact ((writeback_abort_characterization d5 _ []).2 (by decide)).1
  · exact ((writeback_abort_characterization d5 _ []).2 (by decide)).2

/-! ### Cursor bounds (claim C6) -/

/-- Moving up keeps the cursor in range. -/
theorem cursorOk_incrCursor (m : TModelStructMenu) (h : cursorOk m) :
    cursorOk m.incrCursor := by
  obtain ⟨h1, h2⟩ := h
  unfold TModelStructMenu.incrCursor
  by_cases hc : m.cursor > 0
  · rw [if_pos hc]
    refine ⟨?_, ?_⟩
    · show (0 : Int) ≤ m.cursor - 1
      omega
    · show m.cursor - 1 < (m.menuFields.length : Int)
      omega
  · rw [if_neg hc]
    exact ⟨h1, h2⟩

/-- Moving down keeps the cursor in range. -/
theorem cursorOk_decrCursor (m : TModelStructMenu) (h : cursorOk m) :
    cursorOk m.decrCursor := by
  obtain ⟨h1, h2⟩ := h
  unfold TModelStructMenu.decrCursor
  by_cases hc : m.cursor < (m.menuFields.length : Int) - 1
  · rw [if_pos hc]
    refine ⟨?_, ?_⟩
    · show (0 : Int) ≤ m.cursor + 1
      omega
    · show m.cursor + 1 < (m.menuFields.length : Int)
      omega
  · rw [if_neg hc]
    exact ⟨h1, h2⟩

/-- The cursor after `incrCursor`. -/
theorem cursor_incrCursor (m : TModelStructMenu) :
    m.incrCursor.cursor = if m.cursor > 0 then m.cursor - 1 else m.cursor := by
  unfold TModelStructMenu.incrCursor
  split <;> rfl

/-- The cursor after `decrCursor`. -/
theorem cursor_decrCursor (m : TModelStructMenu) :
    m.decrCursor.cursor =
      if m.cursor < (m.menuFields.length : Int) - 1 then m.cursor + 1 else m.cursor := by
  unfold TModelStructMenu.decrCursor
  split <;> rfl

/-- Value writes keep the cursor in range. -/
theorem cursorOk_set (m : TModelStructMenu) (i : Int) (v : GoValue) (h : cursorOk m) :
    cursorOk (m.setFieldValueAtIndex i v) := by
  obtain ⟨h1, h2⟩ := h
  unfold cursorOk
  rw [cursor_setFieldValueAtIndex, length_setFieldValueAtIndex]
  exact ⟨h1, h2⟩

/-- The backspace branch keeps the cursor in range. -/
theorem cursorOk_backspaceStep (m : TModelStructMenu) (h : cursorOk m) :
    cursorOk (backspaceStep m) := by
  rcases hval : m.getCursorFieldValue with s1 | b | n
  · simp only [backspaceStep, hval]
    repeat' split
    all_goals first | exact h | exact cursorOk_set m _ _ h
  · simp only [backspaceStep, hval]
    exact h
  · simp only [backspaceStep, hval]
    repeat' split
    all_goals first | exact h | exact cursorOk_set m _ _ h

/-- The enter branch keeps the cursor in range. -/
theorem cursorOk_enterStep (m : TModelStructMenu) (h : cursorOk m) :
    cursorOk (enterStep m) := by
  simp only [enterStep]
  split
  · exact cursorOk_decrCursor _ ⟨h.1, h.2⟩
  · exact ⟨h.1, h.2⟩

/-- The editing branches keep the cursor in range. -/
theorem cursorOk_editingStep (m : TModelStructMenu) (s : String) (h : cursorOk m) :
    cursorOk (editingStep m s) := by
  rcases hval : m.getCursorFieldValue with s1 | b | n
  · simp only [editingStep, hval]
    exact cursorOk_set m _ _ h
  · simp only [editingStep, hval]
    repeat' split
    all_goals first | exact h | exact cursorOk_set m _ _ h
  · simp only [editingStep, hval]
    repeat' split
    all_goals first | exact h | exact cursorOk_set m _ _ h

/-- The navigating branches keep the cursor in range. -/
theorem cursorOk_navigatingStep (m : TModelStructMenu) (s : String) (h : cursorOk m) :
    cursorOk (navigatingStep m s).1 := by
  simp only [navigatingStep]
  repeat' split
  all_goals first
    | exact h
    | exact ⟨h.1, h.2⟩
    | exact cursorOk_incrCursor m h
    | exact cursorOk_decrCursor m h
    | exact cursorOk_set m _ _ h

/-- An up key in navigating mode runs `incrCursor`. -/
theorem update_nav_up (m : TModelStructMenu) (hnav : m.isEditingValue = false)
    (s : String) (hs : s = "up" ∨ s = "k" ∨ s = "shift+tab") :
    (m.Update (TeaMsg.key (KeyMsg.str s))).1 = m.incrCursor := by
  rcases hs with hk | hk | hk <;> subst hk <;>
    simp [TModelStructMenu.Update, navigatingStep, hnav]

/-- A down key in navigating mode runs `decrCursor`. -/
theorem update_nav_down (m : TModelStructMenu) (hnav : m.isEditingValue = false)
    (s : String) (hs : s = "down" ∨ s = "j" ∨ s = "tab") :
    (m.Update (TeaMsg.key (KeyMsg.str s))).1 = m.decrCursor := by
  rcases hs with hk | hk | hk <;> subst hk <;>
    simp [TModelStructMenu.Update, navigatingStep, hnav]

/-- C6: for every in-range state and every message, the cursor stays in
the interval from 0 to fieldCount-1; in navigating mode the up keys (up, k,
shift+tab) leave the cursor at 0 unchanged and otherwise move it one field
toward 0, and the down keys (down, j, tab) leave the cursor at the last
index unchanged and otherwise move it one field toward the last index. -/
theorem cursor_bounds_invariant (m : TModelStructMenu) (msg : TeaMsg) (h : cursorOk m) :
    cursorOk (m.Update msg).1
    ∧ (∀ s, m.isEditingValue = false → upKeys.contains s = true →
        (m.Update (TeaMsg.key (KeyMsg.str s))).1.cursor =
          if m.cursor = 0 then 0 else m.cursor - 1)
    ∧ (∀ s, m.isEditingValue = false → downKeys.contains s = true →
        (m.Update (TeaMsg.key (KeyMsg.str s))).1.cursor =
          if m.cursor = (m.menuFields.length : Int) - 1 then m.cursor else m.cursor + 1) := by
  refine ⟨?_, ?_, ?_⟩
  · cases msg with
    | other => exact h
    | key k =>
      cases k with
      | backspace => exact cursorOk_backspaceStep m h
      | str s =>
        simp only [TModelStructMenu.Update]
        by_cases hs : s = "enter"
        · rw [if_pos hs]
          exact cursorOk_enterStep m h
        · rw [if_neg hs]
          by_cases hedit : m.isEditingValue = true
          · rw [if_pos hedit]
            exact cursorOk_editingStep m s h
          · rw [if_neg hedit]
            exact cursorOk_navigatingStep m s h
  · intro s hnav hcont
    have hmem : s ∈ upKeys := by simpa using hcont
    have hs : s = "up" ∨ s = "k" ∨ s = "shift+tab" := by simpa [upKeys] using hmem
    rw [update_nav_up m hnav s hs, cursor_incrCursor]
    obtain ⟨h1, h2⟩ := h
    split_ifs <;> omega
  · intro s hnav hcont
    have hmem : s ∈ downKeys := by simpa using hcont
    have hs : s = "down" ∨ s = "j" ∨ s = "tab" := by simpa [downKeys] using hmem
    rw [update_nav_down m hnav s hs, cursor_decrCursor]
    obtain ⟨h1, h2⟩ := h
    split_ifs <;> omega

/-- C6 witness: on the concrete three-field menu at cursor 0, up stays at 0
and down moves to 1, in range. -/
theorem cursor_bounds_invariant_witness :
    cursorOk (m7.Update (TeaMsg.key (KeyMsg.str "up"))).1
    ∧ (m7.Update (TeaMsg.key (KeyMsg.str "up"))).1.cursor = 0
    ∧ (m7.Update (TeaMsg.key (KeyMsg.str "down"))).1.cursor = 1 := by
  have hu := cursor_bounds_invariant m7 (TeaMsg.key (KeyMsg.str "up")) (by decide)
  refine ⟨hu.1, ?_, ?_⟩
  · have := hu.2.1 "up" rfl (by decide)
    simpa using this
  · have := hu.2.2 "down" rfl (by decide)
    simpa using this

/-! ### Extraction / write-back round trip (claim C1) -/

/-- With an empty filter, extraction keeps every settable supported field,
in order. -/
theorem extract_empty_filter :
    ∀ (s : GoStruct), (∀ f ∈ s, f.canSet = true ∧ f.kind ≠ GoKind.kOther) →
      s.filterMap (extractField [] false) = s.map toMenuField := by
  intro s
  induction s with
  | nil => intro _; rfl
  | cons f t ih =>
    intro hall
    have hf := hall f (by simp)
    have hrest : ∀ g ∈ t, g.canSet = true ∧ g.kind ≠ GoKind.kOther :=
      fun g hg => hall g (by simp [hg])
    have hex : extractField [] false f = some (toMenuField f) := by
      unfold extractField
      rw [if_neg (by simp), if_neg (by simp [hf.1])]
      cases hk : f.kind
      · rfl
      · rfl
      · rfl
      · exact absurd hk hf.2
    simp only [List.filterMap_cons, hex, List.map_cons]
    rw [ih hrest]

/-- Looking up a name skips a head field with a different name. -/
theorem fieldByName_cons_ne (x : StructField) (t : GoStruct) (nm : String)
    (h : x.name ≠ nm) : fieldByName (x :: t) nm = fieldByName t nm := by
  show (if x.name = nm then some x else fieldByName t nm) = fieldByName t nm
  rw [if_neg h]

/-- Writing by name skips a head field with a different name. -/
theorem setFieldByName_cons_ne (x : StructField) (t : GoStruct) (nm : String)
    (h : x.name ≠ nm) (v : GoValue) :
    setFieldByName (x :: t) nm v = x :: setFieldByName t nm v := by
  show (if x.name = nm then { x with value := v } :: t else x :: setFieldByName t nm v) =
    x :: setFieldByName t nm v
  rw [if_neg h]

/-- One write-back iteration for a descriptor that does not target the
head field acts on the tail. -/
theorem processField_cons (x : StructField) (t : GoStruct) (mf : menuField)
    (h : mf.name ≠ x.name) :
    processField (x :: t) mf = (x :: (processField t mf).1, (processField t mf).2) := by
  have hx : x.name ≠ mf.name := fun hc => h hc.symm
  unfold processField
  rw [fieldByName_cons_ne x t mf.name hx]
  cases hf : fieldByName t mf.name with
  | none => rfl
  | some f =>
    cases hcs : f.canSet <;> cases hk : f.kind <;> cases hv : mf.value <;>
      simp [hcs, hk, hv, setFieldByName_cons_ne x t mf.name hx]

/-- The write-back loop leaves a head field alone when no descriptor
targets it. -/
theorem parseLoop_cons_skip (x : StructField) :
    ∀ (mfs : List menuField) (t : GoStruct), (∀ mf ∈ mfs, mf.name ≠ x.name) →
      parseLoop (x :: t) mfs = (x :: (parseLoop t mfs).1, (parseLoop t mfs).2) := by
  intro mfs
  induction mfs with
  | nil => intro t _; rfl
  | cons mf rest ih =>
    intro t hall
    have h0 : mf.name ≠ x.name := hall mf (by simp)
    have hrest : ∀ g ∈ rest, g.name ≠ x.name := fun g hg => hall g (by simp [hg])
    have hpc := processField_cons x t mf h0
    rcases hpt : processField t mf with ⟨d', e⟩
    rw [hpt] at hpc
    cases e with
    | none =>
      simp only [parseLoop, hpc, hpt]
      exact ih d' hrest
    | some e' =>
      simp only [parseLoop, hpc, hpt]

/-- Writing the descriptor of a well-formed field into a same-shaped
destination head replaces the head by the original field. -/
theorem processField_exact (f g : StructField) (gs : GoStruct)
    (hname : f.name = g.name) (hkind : f.kind = g.kind) (hcs : f.canSet = g.canSet)
    (hsm : f.smname = g.smname) (hsd : f.smdes = g.smdes)
    (hwf : fieldWF f = true) (hfcs : f.canSet = true) (hko : f.kind ≠ GoKind.kOther) :
    processField (g :: gs) (toMenuField f) = (f :: gs, none) := by
  obtain ⟨fn, fk, fv, fcs, fsm, fsd⟩ := f
  obtain ⟨gn, gk, gv, gcs, gsm, gsd⟩ := g
  simp only at hname hkind hcs hsm hsd hfcs
  subst hname hkind hcs hsm hsd hfcs
  rcases fk with _ | _ | _ | _ <;> rcases fv with sv | bv | nv <;>
    simp_all [fieldWF, processField, fieldByName, setFieldByName, toMenuField]

/-- Unpacking the shape comparison on cons cells. -/
theorem sameShapeB_cons (f g : StructField) (fs gs : GoStruct)
    (h : sameShapeB (f :: fs) (g :: gs) = true) :
    f.name = g.name ∧ f.kind = g.kind ∧ f.canSet = g.canSet ∧
    f.smname = g.smname ∧ f.smdes = g.smdes ∧ sameShapeB fs gs = true := by
  simp only [sameShapeB, Bool.and_eq_true, beq_iff_eq] at h
  tauto

/-- The write-back loop applied to the descriptors of a well-formed record
with distinct field names restores that record in any same-shaped
destination. -/
theorem parseLoop_roundtrip :
    ∀ (s d : GoStruct),
      (∀ f ∈ s, fieldWF f = true ∧ f.canSet = true ∧ f.kind ≠ GoKind.kOther) →
      (s.map StructField.name).Nodup →
      sameShapeB s d = true →
      parseLoop d (s.map toMenuField) = (s, none) := by
  intro s
  induction s with
  | nil =>
    intro d _ _ hshape
    cases d with
    | nil => rfl
    | cons g gs => simp [sameShapeB] at hshape
  | cons f fs ih =>
    intro d hall hnodup hshape
    cases d with
    | nil => simp [sameShapeB] at hshape
    | cons g gs =>
      obtain ⟨hname, hkind, hcs, hsm, hsd, hrest⟩ := sameShapeB_cons f g fs gs hshape
      have hf := hall f (by simp)
      have hfs : ∀ x ∈ fs, fieldWF x = true ∧ x.canSet = true ∧ x.kind ≠ GoKind.kOther :=
        fun x hx => hall x (by simp [hx])
      have hnod : f.name ∉ fs.map StructField.name := (List.nodup_cons.mp hnodup).1
      have hnodup' : (fs.map StructField.name).Nodup := (List.nodup_cons.mp hnodup).2
      have hpf := processField_exact f g gs hname hkind hcs hsm hsd hf.1 hf.2.1 hf.2.2
      simp only [List.map_cons, parseLoop, hpf]
      rw [parseLoop_cons_skip f (fs.map toMenuField) gs ?hnames]
      case hnames =>
        intro mf hmf
        obtain ⟨x, hx, hxe⟩ := List.mem_map.mp hmf
        subst hxe
        show x.name ≠ f.name
        intro hc
        exact hnod (hc ▸ List.mem_map_of_mem StructField.name hx)
      rw [ih gs hfs hnodup' hrest]

/-- C1: for every non-empty record of settable string/bool/int fields with
distinct names, constructing the menu with an empty filter succeeds, and an
immediate write-back (no edits) into any destination of the same shape
reproduces the original record exactly, field for field, with a nil
error. -/
theorem extract_writeback_roundtrip (s d : GoStruct)
    (hne : s ≠ [])
    (hall : ∀ f ∈ s, fieldWF f = true ∧ f.canSet = true ∧ f.kind ≠ GoKind.kOther)
    (hnodup : (s.map StructField.name).Nodup)
    (hshape : sameShapeB s d = true) :
    (InitialTModelStructMenu (StructObj.ptrToStruct s) [] false none).2 = none
    ∧ (InitialTModelStructMenu (StructObj.ptrToStruct s) [] false none).1.ParseStruct
        (StructObj.ptrToStruct d) = (StructObj.ptrToStruct s, none) := by
  have hext := extract_empty_filter s (fun f hf => ⟨(hall f hf).2.1, (hall f hf).2.2⟩)
  have hfne : (s.map toMenuField).isEmpty = false := by
    cases s with
    | nil => exact absurd rfl hne
    | cons a t => rfl
  have hcon : InitialTModelStructMenu (StructObj.ptrToStruct s) [] false none =
      ({ menuFields := s.map toMenuField, cursor := 0, isEditingValue := false,
         QuitWithCancel := false, Settings := MenuSettings.Init }, none) := by
    simp only [InitialTModelStructMenu, hext]
    rw [if_neg (by simp [hfne])]
  rw [hcon]
  refine ⟨rfl, ?_⟩
  show (StructObj.ptrToStruct (parseLoop d (s.map toMenuField)).1,
    (parseLoop d (s.map toMenuField)).2) = _
  rw [parseLoop_roundtrip s d hall hnodup hshape]

/-- C1 witness: the concrete record of the end-to-end scenario round-trips
into a same-shaped destination holding different values. -/
theorem extract_writeback_roundtrip_witness :
    (InitialTModelStructMenu (StructObj.ptrToStruct s7) [] false none).2 = none
    ∧ (InitialTModelStructMenu (StructObj.ptrToStruct s7) [] false none).1.ParseStruct
        (StructObj.ptrToStruct dz) = (StructObj.ptrToStruct s7, none) :=
  extract_writeback_roundtrip s7 dz (by decide) (by decide) (by decide) (by decide)
